import Mathlib

/-!
Verification of the three teaching examples in this repository: the
two-poll future MyFut with its cooperative polling protocol
(src/examples/my_ready.rs), the two short-circuit helpers
(src/examples/my_ready.rs and src/examples/my_try.rs), and the variadic
vector constructor (src/examples/my_vec.rs).
-/

/-- Embedding of std::task::Poll as used by MyFut::poll in
src/examples/my_ready.rs: a two-state outcome, Ready with a value or
Pending, and nothing else. -/
inductive Poll (α : Type) where
  | Ready : α → Poll α
  | Pending : Poll α
deriving DecidableEq

/-- Embedding of struct MyFut from src/examples/my_ready.rs:
polled: bool and v: usize (usize modelled as Nat; the program performs no
arithmetic on it, only storage and return). -/
structure MyFut where
  polled : Bool
  v : Nat
deriving DecidableEq

/-- Embedding of MyFut::new(v) from src/examples/my_ready.rs:
Self { polled: false, v }. -/
def MyFut.new (v : Nat) : MyFut := ⟨false, v⟩

/-- Embedding of MyFut::poll (the impl Future for MyFut block in
src/examples/my_ready.rs). The Context cx is used only through
cx.waker().wake_by_ref(); the waker is modelled as a state w of an
arbitrary type together with the effect wake of one wake_by_ref call.
If polled is true the function returns Ready(v) and touches nothing;
otherwise it sets polled to true, applies the wake effect once and
returns Pending. The result is (poll outcome, updated future, updated
waker state). -/
def MyFut.poll {σ : Type} (s : MyFut) (wake : σ → σ) (w : σ) :
    Poll Nat × MyFut × σ :=
  if s.polled then
    (Poll.Ready s.v, s, w)
  else
    (Poll.Pending, ⟨true, s.v⟩, wake w)

/-- State of the future and of the waker after n successive calls to
poll, starting from future state s and waker state w. -/
def MyFut.iterate {σ : Type} (wake : σ → σ) (s : MyFut) (w : σ) :
    Nat → MyFut × σ
  | 0 => (s, w)
  | n + 1 =>
    let p := MyFut.iterate wake s w n
    ((p.1.poll wake p.2).2.1, (p.1.poll wake p.2).2.2)

/-- Outcome of poll call number n, counting from 1: the value MyFut::poll
returns on its n-th invocation, after n - 1 earlier invocations. -/
def MyFut.nthPollResult {σ : Type} (wake : σ → σ) (s : MyFut) (w : σ)
    (n : Nat) : Poll Nat :=
  ((MyFut.iterate wake s w (n - 1)).1.poll wake
    (MyFut.iterate wake s w (n - 1)).2).1

/-- Untyped value domain on which the two text-substitution helpers are
modelled: macro_rules expansion happens on expressions before type
checking, so the helpers are functions on outcome-shaped values. -/
inductive Val where
  | nat : Nat → Val
  | str : String → Val
  | ready : Val → Val
  | pending : Val
  | ok : Val → Val
  | err : Val → Val
deriving DecidableEq

/-- Expansion of the ready-or-return helper defined at the bottom of
src/examples/my_ready.rs: match on the scrutinee; Poll::Ready(v)
evaluates in place to Poll::Ready(v), the value re-wrapped in Ready;
Poll::Pending early-returns Poll::Pending from the enclosing function.
Sum.inl carries the value the surrounding expression receives, Sum.inr
the early-returned value; none marks a scrutinee shape the match does
not cover (rejected by the Rust type checker at expansion sites). -/
def myReadyExpand : Val → Option (Val ⊕ Val)
  | Val.ready v => some (Sum.inl (Val.ready v))
  | Val.pending => some (Sum.inr Val.pending)
  | _ => none

/-- Expansion of the try helper defined in src/examples/my_try.rs:
Ok(val) evaluates in place to the bare val; Err(e) early-returns
Err(e.into()). At every use site in the repository the source and target
error types are both anyhow::Error, where Into::into is the identity
conversion, so the early-returned error is Err(e) with e itself. -/
def myTryExpand : Val → Option (Val ⊕ Val)
  | Val.ok v => some (Sum.inl v)
  | Val.err e => some (Sum.inr (Val.err e))
  | _ => none

/-- Element-sequence semantics of the non-empty arm of the vector macro
in src/examples/my_vec.rs: Box::new([x1, ..., xn]) allocates a boxed
array holding the listed elements in order, and into_vec moves exactly
those elements, in order, into the resulting Vec. -/
def intoVecOfArray {α : Type} (xs : List α) : List α := xs

/-- The plain push-based construction that the vector macro replaces
(the commented-out expansion kept in src/examples/my_vec.rs): start from
an empty Vec and push the elements left to right. -/
def pushBuild {α : Type} (xs : List α) : List α :=
  xs.foldl (fun acc x => acc.concat x) []

/-- After n polls of a freshly constructed future: for n = 0 the state
and the waker are untouched; for every n at least 1 the flag is true and
the wake effect has been applied exactly once. -/
theorem MyFut.iterate_new {σ : Type} (wake : σ → σ) (v : Nat) (w : σ) :
    ∀ n : Nat, MyFut.iterate wake (MyFut.new v) w n =
      if n = 0 then (MyFut.new v, w) else (⟨true, v⟩, wake w) := by
  intro n
  induction n with
  | zero => rfl
  | succ k ih =>
    by_cases hk : k = 0
    · subst hk
      simp [MyFut.iterate, MyFut.poll, MyFut.new]
    · simp only [MyFut.iterate, ih]
      simp [hk, MyFut.poll]

/-- Folding push over a list starting from any accumulator appends the
list to the accumulator. -/
theorem foldl_concat_eq_append {α : Type} (xs : List α) :
    ∀ acc : List α, xs.foldl (fun a x => a.concat x) acc = acc ++ xs := by
  induction xs with
  | nil => intro acc; simp
  | cons x t ih =>
    intro acc
    rw [List.foldl_cons, ih, List.concat_eq_append, List.append_assoc,
      List.singleton_append]

/-- Claim C1: the first poll on a computation freshly produced by
MyFut::new(v) returns Pending, sets the polled flag to true, keeps the
stored value, and invokes the wake signal exactly once: the waker effect
wake is applied once to the waker state. -/
theorem first_poll_pending_sets_flag_wakes {σ : Type} (wake : σ → σ)
    (w : σ) (v : Nat) :
    (MyFut.new v).poll wake w = (Poll.Pending, ⟨true, v⟩, wake w) := by
  simp [MyFut.poll, MyFut.new]

/-- Claim C2: for every constructed value v and every waker, the second
poll after MyFut::new(v) returns Ready v, exactly the value given at
construction, with no transformation. -/
theorem second_poll_ready_exact_value {σ : Type} (wake : σ → σ) (w : σ)
    (v : Nat) :
    MyFut.nthPollResult wake (MyFut.new v) w 2 = Poll.Ready v := by
  simp [MyFut.nthPollResult, MyFut.iterate, MyFut.poll, MyFut.new]

/-- Claim C3: for every constructed value v and every n at least 3, the
n-th poll still returns Ready v with the same value, and the flag is
still true going into that call: the flag, once true, is never reset,
so poll is idempotent after completion. -/
theorem later_polls_ready_idempotent {σ : Type} (wake : σ → σ) (w : σ)
    (v n : Nat) (h : 3 ≤ n) :
    MyFut.nthPollResult wake (MyFut.new v) w n = Poll.Ready v ∧
      (MyFut.iterate wake (MyFut.new v) w (n - 1)).1.polled = true := by
  have hn : ¬ n - 1 = 0 := by omega
  unfold MyFut.nthPollResult
  rw [MyFut.iterate_new]
  simp [hn, MyFut.poll]

/-- Witness for claim C3 at v = 7, n = 5, with a counting waker. -/
theorem later_polls_ready_idempotent_check :
    3 ≤ 5 ∧
      MyFut.nthPollResult Nat.succ (MyFut.new 7) 0 5 = Poll.Ready 7 :=
  ⟨by decide, (later_polls_ready_idempotent Nat.succ 0 7 5 (by decide)).1⟩

/-- Claim C4: over any run of n polls (n at least 1) on a fresh future,
counting wake invocations with a counter waker starting at 0, the wake
signal fires exactly once — never 0 times and never 2 or more; moreover
every poll after the first (each of which reports Ready) leaves the
counter unchanged, so the single invocation happens during the first
poll only and never after the computation has reported Ready. -/
theorem wake_invoked_exactly_once (v n : Nat) (h : 1 ≤ n) :
    (MyFut.iterate Nat.succ (MyFut.new v) 0 n).2 = 1 ∧
      ∀ k, 1 ≤ k →
        (MyFut.iterate Nat.succ (MyFut.new v) 0 (k + 1)).2 =
          (MyFut.iterate Nat.succ (MyFut.new v) 0 k).2 := by
  constructor
  · rw [MyFut.iterate_new]
    have hn : ¬ n = 0 := by omega
    simp [hn]
  · intro k hk
    rw [MyFut.iterate_new, MyFut.iterate_new]
    have h1 : ¬ k + 1 = 0 := by omega
    have h2 : ¬ k = 0 := by omega
    simp [h1, h2]

/-- Witness for claim C4 at v = 42 over a run of 3 polls. -/
theorem wake_invoked_exactly_once_check :
    1 ≤ 3 ∧ (MyFut.iterate Nat.succ (MyFut.new 42) 0 3).2 = 1 :=
  ⟨by decide, (wake_invoked_exactly_once 42 3 (by decide)).1⟩

/-- Claim C5: the polled flag is monotonic over every poll sequence from
a fresh future: once it is true after n polls it is still true after any
m at least n polls, and among all steps there is at most one transition
from false to true. -/
theorem ready_flag_monotone {σ : Type} (wake : σ → σ) (w : σ)
    (v n m : Nat) (hnm : n ≤ m)
    (hn : (MyFut.iterate wake (MyFut.new v) w n).1.polled = true) :
    (MyFut.iterate wake (MyFut.new v) w m).1.polled = true ∧
      ∀ k j : Nat,
        ((MyFut.iterate wake (MyFut.new v) w k).1.polled = false ∧
          (MyFut.iterate wake (MyFut.new v) w (k + 1)).1.polled = true) →
        ((MyFut.iterate wake (MyFut.new v) w j).1.polled = false ∧
          (MyFut.iterate wake (MyFut.new v) w (j + 1)).1.polled = true) →
        k = j := by
  have key : ∀ i : Nat, (MyFut.iterate wake (MyFut.new v) w i).1.polled =
      if i = 0 then false else true := by
    intro i
    rw [MyFut.iterate_new]
    by_cases hi : i = 0 <;> simp [hi, MyFut.new]
  constructor
  · rw [key]
    rw [key] at hn
    by_cases hn0 : n = 0
    · simp [hn0] at hn
    · have hm0 : ¬ m = 0 := by omega
      simp [hm0]
  · intro k j hk hj
    have hk0 : k = 0 := by
      by_contra hne
      have hfk := hk.1
      rw [key] at hfk
      simp [hne] at hfk
    have hj0 : j = 0 := by
      by_contra hne
      have hfj := hj.1
      rw [key] at hfj
      simp [hne] at hfj
    omega
/-- Witness for claim C5 at v = 5, n = 1, m = 2, with a counting waker. -/
theorem ready_flag_monotone_check :
    1 ≤ 2 ∧
      (MyFut.iterate Nat.succ (MyFut.new 5) 0 1).1.polled = true ∧
      (MyFut.iterate Nat.succ (MyFut.new 5) 0 2).1.polled = true :=
  ⟨by decide, by decide,
    (ready_flag_monotone Nat.succ 0 5 1 2 (by decide) (by decide)).1⟩

/-- Claim C6: no poll call ever changes the stored value v; a poll on an
already completed future changes the future state not at all; and over
the lifetime of a fresh future only one poll call, the first, mutates
the state (the single flag flip). -/
theorem poll_frame_value_unchanged {σ : Type} (wake : σ → σ) (w : σ)
    (s : MyFut) :
    (s.poll wake w).2.1.v = s.v ∧
      (s.polled = true → (s.poll wake w).2.1 = s) ∧
      ∀ v n : Nat,
        (MyFut.iterate wake (MyFut.new v) w (n + 1)).1 ≠
          (MyFut.iterate wake (MyFut.new v) w n).1 → n = 0 := by
  refine ⟨?_, ?_, ?_⟩
  · by_cases hs : s.polled <;> simp [MyFut.poll, hs]
  · intro hs
    simp [MyFut.poll, hs]
  · intro v n hne
    by_contra hn0
    apply hne
    rw [MyFut.iterate_new, MyFut.iterate_new]
    have h1 : ¬ n + 1 = 0 := by omega
    simp [h1, hn0]

/-- Witness for claim C6 on the already completed state with value 9. -/
theorem poll_frame_value_unchanged_check :
    (⟨true, 9⟩ : MyFut).polled = true ∧
      ((⟨true, 9⟩ : MyFut).poll Nat.succ 0).2.1 = ⟨true, 9⟩ :=
  ⟨rfl, (poll_frame_value_unchanged Nat.succ 0 ⟨true, 9⟩).2.1 rfl⟩

/-- Claim C7: for every future state and every waker, poll returns one
of exactly the two outcomes: Ready with the stored value, or Pending.
The embedding is a total function into this two-constructor type, so no
error path exists: poll reports pending-vs-complete and cannot fail. -/
theorem poll_two_outcomes_no_error {σ : Type} (wake : σ → σ) (w : σ)
    (s : MyFut) :
    (s.poll wake w).1 = Poll.Ready s.v ∨
      (s.poll wake w).1 = Poll.Pending := by
  by_cases hs : s.polled
  · left
    simp [MyFut.poll, hs]
  · right
    simp [MyFut.poll, hs]

/-- Claim C8 fails as stated on the ready-or-return helper: applied to
the ready outcome Poll::Ready(5), the helper yields the re-wrapped
outcome Poll::Ready(5) to the surrounding expression, not the enclosed
bare value 5 that the claim promises for continued use. -/
theorem my_ready_yields_wrapped_not_bare :
    myReadyExpand (Val.ready (Val.nat 5)) ≠
        some (Sum.inl (Val.nat 5)) ∧
      myReadyExpand (Val.ready (Val.nat 5)) =
        some (Sum.inl (Val.ready (Val.nat 5))) := by
  exact ⟨by decide, rfl⟩

/-- Claim C8 as amended: both helpers short-circuit — on the not-ready
or failure case the enclosing function immediately returns that outcome,
without further evaluation of the surrounding expression. On the success
case the try helper yields the enclosed bare value for continued use,
while the ready-or-return helper yields the outcome re-wrapped as
Poll::Ready(v), not the bare enclosed value. -/
theorem short_circuit_helpers_behavior (v e : Val) :
    myReadyExpand (Val.ready v) = some (Sum.inl (Val.ready v)) ∧
      myReadyExpand Val.pending = some (Sum.inr Val.pending) ∧
      myTryExpand (Val.ok v) = some (Sum.inl v) ∧
      myTryExpand (Val.err e) = some (Sum.inr (Val.err e)) :=
  ⟨rfl, rfl, rfl, rfl⟩

/-- Claim C9: the try helper forwards a failure value unchanged to the
caller: the early-returned outcome is Err of exactly the original error
value, with no inspection, no transformation, and no wrapping beyond the
Err constructor it already carried. -/
theorem my_try_forwards_error_unchanged (e : Val) :
    myTryExpand (Val.err e) = some (Sum.inr (Val.err e)) := rfl

/-- Claim C10: for every non-empty element list, the vector built by the
variadic helper through into_vec of a boxed array is equal, as a
sequence, to the vector built by pushing the same elements in order into
an empty Vec: same elements, same order, and the same length. -/
theorem my_vec_into_vec_eq_push {α : Type} (xs : List α) (h : xs ≠ []) :
    intoVecOfArray xs = pushBuild xs ∧
      (intoVecOfArray xs).length = xs.length := by
  refine ⟨?_, rfl⟩
  unfold intoVecOfArray pushBuild
  rw [foldl_concat_eq_append]
  simp

/-- Witness for claim C10 on the list [1, 2, 3]. -/
theorem my_vec_into_vec_eq_push_check :
    ([1, 2, 3] : List Nat) ≠ [] ∧
      intoVecOfArray ([1, 2, 3] : List Nat) = pushBuild [1, 2, 3] :=
  ⟨by decide, (my_vec_into_vec_eq_push [1, 2, 3] (by decide)).1⟩
